import Mathlib

/-!
Verification of the element-resolution/click engine, script serialization,
session state machine, pagination arithmetic, search-URL resolution, console
capture and screenshot handling of the Safari MCP server.

The in-page scripts live in `src/lib/browser.js` (class `Browser`), the
AppleScript templates in `src/lib/automation.js` (class `Automation`), and the
session controller in `src/server/client.ts` (class `Client`).  JavaScript
strings are modelled as Lean `String` (a list of characters); JavaScript's
falsy-empty-string semantics, `trim`, `toLowerCase`, `trimStart`,
`startsWith`, `includes` and `indexOf !== -1` are translated explicitly below.
-/

namespace SafariMCP

/-- JavaScript `a || b` on strings: the empty string is falsy. -/
def jsOr (a b : String) : String := if a.isEmpty then b else a

/-- JavaScript `s.indexOf(pat) !== -1`: `pat` occurs as a contiguous substring
of `s`.  (Also models `s.includes(pat)`.) -/
def strContains (s pat : String) : Bool := decide (pat.data <:+: s.data)

/-- JavaScript `s.trim()` (whitespace stripped from both ends). -/
def jsTrim (s : String) : String :=
  String.mk (((s.data.dropWhile Char.isWhitespace).reverse.dropWhile Char.isWhitespace).reverse)

/-- JavaScript `s.toLowerCase()` (ASCII case folding in this model). -/
def jsToLower (s : String) : String := String.mk (s.data.map Char.toLower)

/-- JavaScript `s.trimStart()`. -/
def jsTrimStart (s : String) : String := String.mk (s.data.dropWhile Char.isWhitespace)

/-- JavaScript `s.startsWith(p)`. -/
def jsStartsWith (s p : String) : Bool := p.data.isPrefixOf s.data

/-!
DOM model for the in-page click scripts.

An element is modelled by the attributes the script in `Browser.clickElement`
(src/src/lib/browser.js lines 81-149) actually inspects.  Absent `aria-label`
and `alt` attributes are modelled as `""` (JavaScript `getAttribute` returns
`null`, and the script only ever uses the attribute behind `|| ''` or a
truthiness test, where `null` and `''` behave identically).  `imgAlt` is the
`alt` attribute of the first descendant `img[alt]`, when one exists.  `sels`
lists which of the script's fixed CSS selectors the element matches; `"*"`
matches every element.  A document is the list of its elements in document
order, so `querySelectorAll` is `List.filter`.
-/

structure Elem where
  tag : String
  textContent : String
  value : String
  ariaLabel : String
  altAttr : String
  imgAlt : Option String
  hasRect : Bool
  width : Nat
  height : Nat
  display : String
  visibility : String
  opacity : String
  sels : List String
deriving DecidableEq

/-- The helper `getText(el)` of the click script: fall through
`textContent || value || aria-label || alt || ''`, fall back to a descendant
image's `alt` when the result trims to empty, then trim and lower-case. -/
def getText (e : Elem) : String :=
  let t := jsOr (jsOr (jsOr e.textContent e.value) e.ariaLabel) e.altAttr
  let t := if (jsTrim t).isEmpty then
             match e.imgAlt with
             | some a => a
             | none => t
           else t
  jsToLower (jsTrim t)

/-- The helper `isVisible(el)` of the click script: require a bounding rect,
reject a zero-by-zero bounding box, and reject hidden computed styles. -/
def isVisible (e : Elem) : Bool :=
  if !e.hasRect then false
  else if e.width == 0 && e.height == 0 then false
  else e.display != "none" && e.visibility != "hidden" && e.opacity != "0"

/-- Whether an element matches one CSS selector of the script's fixed lists. -/
def matchesSel (e : Elem) (s : String) : Bool := s == "*" || e.sels.contains s

/-- `document.querySelectorAll(sel)`: the document-order list of matches. -/
def querySelectorAll (s : String) (d : List Elem) : List Elem :=
  d.filter (fun e => matchesSel e s)

/-- The selector group of the aria-label first pass:
`'button, [role="button"], a, [role="link"], [role="menuitem"], [role="tab"]'`. -/
def ariaGroupSelectors : List String :=
  ["button", "[role=\"button\"]", "a", "[role=\"link\"]", "[role=\"menuitem\"]",
   "[role=\"tab\"]"]

/-- The prioritized interactive selector list of the second pass. -/
def prioritySelectors : List String :=
  ["a", "button", "[role=\"button\"]", "[role=\"link\"]", "[role=\"menuitem\"]",
   "[role=\"tab\"]", "input[type=\"submit\"]", "input[type=\"button\"]",
   "[onclick]", "label", "summary"]

/-- `document.querySelectorAll(ariaSelectors)`: document-order matches of the
comma-separated selector group. -/
def ariaCands (d : List Elem) : List Elem :=
  d.filter (fun e => ariaGroupSelectors.any (fun s => matchesSel e s))

/-- The candidate stream of the second pass: for each prioritized selector in
declared order, its matches in document order (the script's two nested loops). -/
def tierBCands (d : List Elem) : List Elem :=
  (prioritySelectors.map (fun s => querySelectorAll s d)).flatten

/-- `(ariaEl.getAttribute('aria-label') || '').trim().toLowerCase()`. -/
def ariaLabelKey (e : Elem) : String := jsToLower (jsTrim e.ariaLabel)

/-- Eligibility in the aria-label pass: nonempty trimmed lower-cased
aria-label containing the search text, on a visible element. -/
def ariaElig (st : String) (e : Elem) : Bool :=
  !(ariaLabelKey e).isEmpty && strContains (ariaLabelKey e) st && isVisible e

/-- Eligibility in the text passes: computed text containing the search text,
on a visible element. -/
def textElig (st : String) (e : Elem) : Bool :=
  strContains (getText e) st && isVisible e

/-- Whether the new candidate length beats the running best
(`elText.length < bestLen`, with `bestLen` starting at `Infinity`). -/
def betterB {α : Type} (cur : Option (α × Nat)) (k : Nat) : Bool :=
  match cur with
  | none => true
  | some (_, bl) => k < bl

/-- One scan loop of the click script: walk the candidates, keeping the
current best (`best`, `bestLen`) and replacing it exactly when an eligible
candidate has a strictly smaller key. -/
def scanFold {α : Type} (elig : α → Bool) (key : α → Nat) (es : List α) :
    Option (α × Nat) :=
  es.foldl (fun cur e => if elig e && betterB cur (key e) then some (e, key e) else cur)
    none

/-- Specification-side selection, following the spec's words: the first
candidate in scan order among the eligible ones whose key (matching text
length) is minimal — shortest-text-wins with ties broken by first encountered. -/
def selectFirstMin {α : Type} (elig : α → Bool) (key : α → Nat) :
    List α → Option (α × Nat)
  | [] => none
  | e :: es =>
    match selectFirstMin elig key es with
    | none => if elig e then some (e, key e) else none
    | some (m, k) => if elig e = true ∧ key e ≤ k then some (e, key e) else some (m, k)

/-- Merge of an accumulator with a scan result: keep the scan result exactly
when it strictly beats the accumulator. -/
def mergeBest {α : Type} (cur r : Option (α × Nat)) : Option (α × Nat) :=
  match r with
  | none => cur
  | some (m, k) => if betterB cur k then some (m, k) else cur

/-- The in-page search of `Browser.clickElement` (src/src/lib/browser.js lines
100-140), given the already lower-cased search text: the aria-label pass over
the aria selector group; if it found nothing, the prioritized-selector text
pass; if that found nothing, the all-elements text pass.  (`bestLen` survives
tier boundaries untouched in the source, but it is only ever written together
with `best`, so each later pass starts from `Infinity` exactly when it runs.) -/
def clickElementEngine (st : String) (d : List Elem) : Option Elem :=
  match scanFold (ariaElig st) (fun e => (ariaLabelKey e).length) (ariaCands d) with
  | some (e, _) => some e
  | none =>
    match scanFold (textElig st) (fun e => (getText e).length) (tierBCands d) with
    | some (e, _) => some e
    | none =>
      (scanFold (textElig st) (fun e => (getText e).length) (querySelectorAll "*" d)).map
        Prod.fst

/-- Specification-side three-tier selection built from `selectFirstMin`,
mirroring the amended reading of the spec: per-tier shortest-text-wins with
ties to the first candidate encountered in the fixed scan order. -/
def specClickSelect (st : String) (d : List Elem) : Option Elem :=
  match selectFirstMin (ariaElig st) (fun e => (ariaLabelKey e).length) (ariaCands d) with
  | some (e, _) => some e
  | none =>
    match selectFirstMin (textElig st) (fun e => (getText e).length) (tierBCands d) with
    | some (e, _) => some e
    | none =>
      (selectFirstMin (textElig st) (fun e => (getText e).length)
        (querySelectorAll "*" d)).map Prod.fst

/-- Result string of the click script for a given (already lower-cased) search
text: the no-match description, or the clicked-element description. -/
def clickResultOf (st : String) (d : List Elem) : String :=
  match clickElementEngine st d with
  | none => "No element found with text: " ++ st
  | some e => "Clicked: " ++ jsToLower e.tag ++ " \"" ++ (getText e).take 80 ++ "\""

/-- `Browser.clickElement(text)` passes `text.toLowerCase()` into the script. -/
def clickElementResult (text : String) (d : List Elem) : String :=
  clickResultOf (jsToLower text) d

/-- Match condition of the engine ignoring visibility: either the trimmed
lower-cased aria-label is nonempty and contains the search text, or the
computed text contains it. -/
def anyTextMatch (st : String) (e : Elem) : Bool :=
  (!(ariaLabelKey e).isEmpty && strContains (ariaLabelKey e) st) ||
    strContains (getText e) st

/-!
Script serialization (`Browser.serialize`, src/src/lib/browser.js lines
338-341) and the outer AppleScript escaping (`Automation.executeScript`,
src/src/lib/automation.js lines 162-165).

Arguments cross the boundary as their `JSON.stringify` encodings.  The value
type below covers the JSON-representable scalars the scripts pass (strings,
numbers, booleans, null); `jsonStringify` follows ECMA-404/ECMA-262 string
quoting, and `jsonParse` is the standard reading of a single JSON scalar
literal, modelling how the target script environment reconstructs each
argument value.
-/

inductive JVal
  | jstr (s : String)
  | jnum (n : Int)
  | jbool (b : Bool)
  | jnull
deriving DecidableEq

/-- Decimal digit character for `n < 10`. -/
def digitChar (n : Nat) : Char := Char.ofNat (48 + n)

/-- Decimal digit characters of a natural number, most significant first. -/
def natDigits (n : Nat) : List Char :=
  if n < 10 then [digitChar n]
  else natDigits (n / 10) ++ [digitChar (n % 10)]
termination_by n
decreasing_by exact Nat.div_lt_self (by omega) (by omega)

/-- Rendering of an integral JavaScript number by `JSON.stringify`. -/
def intRender : Int → String
  | Int.ofNat n => String.mk (natDigits n)
  | Int.negSucc n => String.mk ('-' :: natDigits (n + 1))

/-- Lower-case hexadecimal digit character for `n < 16`. -/
def hexDigitLower (n : Nat) : Char :=
  if n < 10 then Char.ofNat (48 + n) else Char.ofNat (87 + n)

/-- Escape of one character inside a `JSON.stringify` string literal: quote
and backslash get two-character escapes, the named control characters get
their short escapes, the remaining control characters get unicode escapes,
and every other character stands for itself. -/
def jsonEscapeChar (c : Char) : List Char :=
  if c = '"' then ['\\', '"']
  else if c = '\\' then ['\\', '\\']
  else if c = Char.ofNat 8 then ['\\', 'b']
  else if c = Char.ofNat 9 then ['\\', 't']
  else if c = Char.ofNat 10 then ['\\', 'n']
  else if c = Char.ofNat 12 then ['\\', 'f']
  else if c = Char.ofNat 13 then ['\\', 'r']
  else if c.toNat < 32 then
    ['\\', 'u', '0', '0', hexDigitLower (c.toNat / 16), hexDigitLower (c.toNat % 16)]
  else [c]

/-- Body of a `JSON.stringify` string literal. -/
def jsonQuoteChars (l : List Char) : List Char := l.flatMap jsonEscapeChar

/-- `JSON.stringify` of a string value. -/
def jsonQuote (s : String) : String := String.mk ('"' :: jsonQuoteChars s.data ++ ['"'])

/-- `JSON.stringify` of one argument value. -/
def jsonStringify : JVal → String
  | .jstr s => jsonQuote s
  | .jnum n => intRender n
  | .jbool true => "true"
  | .jbool false => "false"
  | .jnull => "null"

/-- Hexadecimal digit test. -/
def isHexDigitChar (c : Char) : Bool :=
  decide (('0' ≤ c ∧ c ≤ '9') ∨ ('a' ≤ c ∧ c ≤ 'f') ∨ ('A' ≤ c ∧ c ≤ 'F'))

/-- Hexadecimal digit value. -/
def hexVal (c : Char) : Nat :=
  if '0' ≤ c ∧ c ≤ '9' then c.toNat - 48
  else if 'a' ≤ c ∧ c ≤ 'f' then c.toNat - 87
  else if 'A' ≤ c ∧ c ≤ 'F' then c.toNat - 55
  else 0

/-- Value of a one-character JSON string escape, when legal. -/
def escFor (e : Char) : Option Char :=
  if e = '"' then some '"'
  else if e = '\\' then some '\\'
  else if e = '/' then some '/'
  else if e = 'b' then some (Char.ofNat 8)
  else if e = 't' then some (Char.ofNat 9)
  else if e = 'n' then some (Char.ofNat 10)
  else if e = 'f' then some (Char.ofNat 12)
  else if e = 'r' then some (Char.ofNat 13)
  else none

/-- Reading of a JSON string literal body (after the opening quote): the
decoded characters together with whatever follows the closing quote. -/
def parseStrChars : List Char → Option (List Char × List Char)
  | [] => none
  | c :: rest =>
    if c = '"' then some ([], rest)
    else if c = '\\' then
      match rest with
      | [] => none
      | e :: rest2 =>
        if e = 'u' then
          match rest2 with
          | h1 :: h2 :: h3 :: h4 :: rest3 =>
            if isHexDigitChar h1 && isHexDigitChar h2 && isHexDigitChar h3 &&
                isHexDigitChar h4 then
              match parseStrChars rest3 with
              | some (cs, r) =>
                some (Char.ofNat
                  (((hexVal h1 * 16 + hexVal h2) * 16 + hexVal h3) * 16 + hexVal h4)
                    :: cs, r)
              | none => none
            else none
          | _ => none
        else
          match escFor e with
          | some ec =>
            match parseStrChars rest2 with
            | some (cs, r) => some (ec :: cs, r)
            | none => none
          | none => none
    else
      match parseStrChars rest with
      | some (cs, r) => some (c :: cs, r)
      | none => none

/-- Numeric value of a list of decimal digit characters, read left to right. -/
def digitsToNat (l : List Char) : Nat :=
  l.foldl (fun a c => a * 10 + (c.toNat - 48)) 0

/-- Reading of a single JSON scalar literal, the standard semantics by which
the script environment reconstructs one serialized argument. -/
def jsonParse (s : String) : Option JVal :=
  if s = "true" then some (.jbool true)
  else if s = "false" then some (.jbool false)
  else if s = "null" then some .jnull
  else
    match s.data with
    | [] => none
    | c :: rest =>
      if c = '"' then
        match parseStrChars rest with
        | some (cs, []) => some (.jstr (String.mk cs))
        | _ => none
      else if c = '-' then
        if rest ≠ [] ∧ rest.all (fun d => decide ('0' ≤ d ∧ d ≤ '9')) then
          some (.jnum (-(digitsToNat rest)))
        else none
      else
        if (c :: rest).all (fun d => decide ('0' ≤ d ∧ d ≤ '9')) then
          some (.jnum (digitsToNat (c :: rest)))
        else none

/-- `Browser.serialize(fn, ...args)`: the self-invoking expression
`'(' + fn.toString() + ')(' + args.map(JSON.stringify).join(', ') + ')'`,
with `fnBody` standing for `fn.toString()`. -/
def serialize (fnBody : String) (args : List JVal) : String :=
  "(" ++ fnBody ++ ")(" ++ String.intercalate ", " (args.map jsonStringify) ++ ")"

/-- JavaScript `s.replace(/c/g, r)` for a single-character global pattern. -/
def replaceAllChar (c : Char) (r : String) (s : String) : String :=
  String.mk (s.data.flatMap (fun x => if x = c then r.data else [x]))

/-- The escaping of `Automation.executeScript` for the AppleScript string
literal: `script.replace(/\\/g, '\\\\').replace(/"/g, '\\"')` — every
backslash doubled first, every double quote escaped second. -/
def automationEscape (s : String) : String :=
  replaceAllChar '"' "\\\"" (replaceAllChar '\\' "\\\\" s)

/-- Prefix of the instantiated `executeScript` AppleScript template, up to the
opening quote of the embedded script literal. -/
def executeScriptTemplatePre : String :=
  "tell application \"Safari\" to do JavaScript \""

/-- Suffix of the instantiated `executeScript` AppleScript template, from the
closing quote of the embedded script literal. -/
def executeScriptTemplatePost : String := "\" in current tab of window 1"

/-- `Automation.executeScript(script)`: the template with the escaped payload
substituted for its placeholder. -/
def automationExecuteScript (script : String) : String :=
  executeScriptTemplatePre ++ automationEscape script ++ executeScriptTemplatePost

/-- Modelled from the spec: the automation language's reading of a
double-quoted string literal body (the inverse quoting rule of the channel,
which lives outside this repository): a backslash escapes the character that
follows it, every other character stands for itself.  On payloads produced by
`automationEscape` a backslash is only ever followed by a backslash or a
double quote, where this rule agrees with AppleScript. -/
def literalUnescape : List Char → List Char
  | [] => []
  | c :: rest =>
    if c = '\\' then
      match rest with
      | [] => ['\\']
      | e :: rest2 => e :: literalUnescape rest2
    else c :: literalUnescape rest

/-!
The wrapping decision of `Client.executeScript` (src/server/client.ts lines
258-265): wrap the script in an immediately-invoked function exactly when it
contains `'return '` and its trimmed prefix is not already a call wrapper.
-/

/-- `script.includes('return ')`, tested on the untrimmed script. -/
def hasReturn (s : String) : Bool := strContains s "return "

/-- The call-wrapper test on the trimmed prefix:
`trimmed.startsWith('(function') || trimmed.startsWith('(() =>') || trimmed.startsWith('(()=>')`. -/
def hasFunction (s : String) : Bool :=
  let t := jsTrimStart s
  jsStartsWith t "(function" || jsStartsWith t "(() =>" || jsStartsWith t "(()=>"

/-- The wrapped script dispatched by `Client.executeScript`. -/
def wrapScript (s : String) : String :=
  if hasReturn s && !hasFunction s then "(function()\x7b" ++ s ++ "\x7d)()" else s

/-!
Viewport pagination (`Client.getPageInfo` lines 287-292 and
`Client.scrollToPage` lines 477-488 of src/server/client.ts, and the
`Browser.pageInfo` script, src/src/lib/browser.js lines 320-328).
-/

/-- `Math.ceil(scrollHeight / innerHeight)` on naturals with positive
`innerHeight` (ceiling division). -/
def pagesOf (scrollHeight innerHeight : Nat) : Nat :=
  (scrollHeight + innerHeight - 1) / innerHeight

/-- What the `Browser.pageInfo` script reports: its JSON carries exactly the
fields `innerHeight` and `scrollHeight` of the live page. -/
structure PageData where
  innerHeight : Nat
  scrollHeight : Nat
deriving DecidableEq

/-- The record built by `Client.getPageInfo`; `scrollOffset` is `Option` with
`none` standing for JavaScript `undefined`. -/
structure PageInfoResult where
  innerHeight : Nat
  scrollHeight : Nat
  scrollOffset : Option Nat
  pages : Nat
deriving DecidableEq

/-- `Client.getPageInfo()`: destructures `innerHeight`, `scrollHeight` and
`scrollOffset` from the parsed script JSON and recomputes `pages`.  The
script's JSON has no `scrollOffset` key, so that binding is `undefined`
(`none`) whatever the page's actual scroll position (`pageScrollY`) is. -/
def getPageInfoModel (pd : PageData) (pageScrollY : Nat) : PageInfoResult :=
  { innerHeight := pd.innerHeight, scrollHeight := pd.scrollHeight,
    scrollOffset := (fun (_ : Nat) => (none : Option Nat)) pageScrollY,
    pages := pagesOf pd.scrollHeight pd.innerHeight }

/-- The vertical offset `Client.scrollToPage(page)` passes to
`window.scrollTo`: `0` when `page ≤ 1`, otherwise
`(Math.min(page, pages) - 1) * innerHeight`. -/
def scrollToPageOffset (page : Int) (scrollHeight innerHeight : Nat) : Int :=
  if page > 1 then (min page (pagesOf scrollHeight innerHeight : Int) - 1) * innerHeight
  else 0

/-!
Session lifecycle (`Client.assertActive` lines 73-77, `Client.openSession`
lines 421-431, `Client.closeSession` lines 235-239 of src/server/client.ts).
Every public method of `Client` other than `openSession` either calls
`assertActive` directly and never writes `this.active`, or is `openSession`
or `closeSession`; the constructor initializes the flag to `false`.
(`search` is omitted: it reaches `assertActive` only through `navigateTo`.)
-/

inductive ClientOp
  | openSession
  | closeSession
  | clickElement
  | closeTab
  | executeScript
  | getConsoleErrors
  | getPageInfo
  | getTitle
  | getUrl
  | goHistory
  | keypress
  | listTabs
  | navigateTo
  | openTab
  | scrollByPixels
  | scrollToPage
  | switchTab
  | takeScreenshot
  | typeText
deriving DecidableEq

/-- Message of `assertActive`'s precondition error. -/
def noSessionMsg : String := "No active session, use `open` tool first."

/-- Message of `openSession`'s precondition error. -/
def alreadyActiveMsg : String := "A session is already active, use `close` tool first."

/-- Effect of each `Client` operation on the `active` flag: `openSession`
errors when active and otherwise ends active; `closeSession` asserts active
and ends inactive; every other operation asserts active and leaves the flag
unchanged.  An error leaves the flag untouched (the throw happens before any
assignment). -/
def stepActive (a : Bool) : ClientOp → Except String Bool
  | .openSession => if a then .error alreadyActiveMsg else .ok true
  | .closeSession => if a then .ok false else .error noSessionMsg
  | _ => if a then .ok a else .error noSessionMsg

/-!
Search-URL resolution (`Client.getSearchUrl`, src/server/client.ts lines
86-100): read `defaults read -g NSPreferredWebServices` (a process error
rejects and propagates), extract the first
`NSProviderIdentifier\s*=\s*"([^"]+)"` match (a failed match makes
`match![1]` throw at runtime), reverse the identifier's dot-separated
segments into a domain and build `https://<domain>/search?q=<encoded query>`.
-/

inductive SearchUrlError
  | readFailed
  | parseFailed
deriving DecidableEq

/-- Skip `\s*` of the provider regex. -/
def skipWs (l : List Char) : List Char := l.dropWhile Char.isWhitespace

/-- The literal head of the provider regex. -/
def providerKey : List Char := "NSProviderIdentifier".data

/-- Attempt of the provider regex at one position: the literal key, `\s*`,
`=`, `\s*`, then a quoted nonempty capture `"([^"]+)"`. -/
def matchProviderAt (l : List Char) : Option String :=
  if providerKey.isPrefixOf l then
    match skipWs (l.drop providerKey.length) with
    | '=' :: r2 =>
      match skipWs r2 with
      | '"' :: r3 =>
        let v := r3.takeWhile (fun c => c ≠ '"')
        if v ≠ [] ∧ r3.drop v.length ≠ [] then some (String.mk v) else none
      | _ => none
    | _ => none
  else none

/-- First match of the provider regex, scanning positions left to right. -/
def findProvider : List Char → Option String
  | [] => none
  | c :: rest =>
    match matchProviderAt (c :: rest) with
    | some v => some v
    | none => findProvider rest

/-- Upper-case hexadecimal digit character for `n < 16`. -/
def hexDigitUpper (n : Nat) : Char :=
  if n < 10 then Char.ofNat (48 + n) else Char.ofNat (55 + n)

/-- UTF-8 bytes of a character. -/
def utf8Bytes (c : Char) : List Nat :=
  let n := c.toNat
  if n < 128 then [n]
  else if n < 2048 then [192 + n / 64, 128 + n % 64]
  else if n < 65536 then [224 + n / 4096, 128 + n / 64 % 64, 128 + n % 64]
  else [240 + n / 262144, 128 + n / 4096 % 64, 128 + n / 64 % 64, 128 + n % 64]

/-- Percent-encoding of one byte. -/
def percentByte (b : Nat) : List Char := ['%', hexDigitUpper (b / 16), hexDigitUpper (b % 16)]

/-- The characters `encodeURIComponent` leaves unescaped. -/
def isUnreservedURI (c : Char) : Bool :=
  c.isAlphanum || c == '-' || c == '_' || c == '.' || c == '!' || c == '~' ||
    c == '*' || c.toNat == 39 || c == '(' || c == ')'

/-- JavaScript `encodeURIComponent`. -/
def encodeURIComponent (s : String) : String :=
  String.mk (s.data.flatMap
    (fun c => if isUnreservedURI c then [c] else (utf8Bytes c).flatMap percentByte))

/-- JavaScript `s.split('.')`: maximal dot-free runs, with empty runs kept
at the ends and between adjacent dots. -/
def splitOnDot : List Char → List (List Char)
  | [] => [[]]
  | c :: rest =>
    match splitOnDot rest with
    | [] => [[c]]
    | hd :: tl => if c = '.' then [] :: hd :: tl else (c :: hd) :: tl

/-- Reversal of the dot-separated provider identifier into a domain:
`match![1].split('.').reverse().join('.')`. -/
def reverseDomain (ident : String) : String :=
  String.mk (List.intercalate ['.'] (splitOnDot ident.data).reverse)

/-- `Client.getSearchUrl(query)`: `providerRead` is the stdout of the
`defaults` subprocess, `none` when the subprocess reported an error. -/
def getSearchUrlModel (providerRead : Option String) (query : String) :
    Except SearchUrlError String :=
  match providerRead with
  | none => .error .readFailed
  | some out =>
    match findProvider out.data with
    | none => .error .parseFailed
    | some ident =>
      .ok ("https://" ++ reverseDomain ident ++ "/search?q=" ++ encodeURIComponent query)

/-!
Console capture (`Browser.errorCapture`, src/src/lib/browser.js lines
241-277).  The page-global state the installer script touches: the
`__safariErrors` / `__safariWarnings` arrays (`none` while undefined), and
the interceptor layers wrapped around `console.error` / `console.warn`, the
`window.onerror` slot, and the `unhandledrejection` listener count.
-/

structure PageState where
  safariErrors : Option (List String)
  safariWarnings : Option (List String)
  errorHooks : Nat
  warnHooks : Nat
  rejectionHooks : Nat
  onerrorHook : Bool
deriving DecidableEq

/-- One execution of the `errorCapture` installer script: return immediately
when `window.__safariErrors` is already set, otherwise create both arrays and
install one interceptor around each console channel, the `onerror` handler
and one `unhandledrejection` listener. -/
def installErrorCapture (p : PageState) : PageState :=
  if p.safariErrors.isSome then p
  else
    { safariErrors := some [], safariWarnings := some [],
      errorHooks := p.errorHooks + 1, warnHooks := p.warnHooks + 1,
      rejectionHooks := p.rejectionHooks + 1, onerrorHook := true }

/-- One page error reaching `console.error`: every installed interceptor
layer appends the formatted message to `window.__safariErrors` once before
delegating to the handler it wrapped. -/
def fireConsoleError (p : PageState) (msg : String) : PageState :=
  { p with safariErrors := p.safariErrors.map (fun l => l ++ List.replicate p.errorHooks msg) }

/-!
Screenshot capture (`Client.takeScreenshot`, src/server/client.ts lines
506-522): run `screencapture` into a fresh temp file, `readFileSync` it,
`unlinkSync` it, return the contents.  There is no try/finally: `unlinkSync`
is reached only after a successful read.  The model tracks whether the temp
file remains on disk, over the possible subprocess/file outcomes; the final
base64 encoding of the buffer is not modelled (it does not bear on the
claim).
-/

inductive CaptureOutcome
  | captured
  | errFileCreated (msg : String)
  | errNoFile (msg : String)
deriving DecidableEq

inductive ReadOutcome
  | readOk (contents : String)
  | readErr (msg : String)
deriving DecidableEq

/-- `Client.takeScreenshot` after the window id was resolved: first component
tells whether the temp capture file remains on disk when the operation
finishes, second component is the propagated outcome. -/
def takeScreenshotModel (cap : CaptureOutcome) (rd : ReadOutcome) :
    Bool × Except String String :=
  match cap with
  | .errNoFile m => (false, .error m)
  | .errFileCreated m => (true, .error m)
  | .captured =>
    match rd with
    | .readErr m => (true, .error m)
    | .readOk contents => (false, .ok contents)

/-!
Concrete documents and states used by counterexamples and witnesses.
-/

/-- A visible anchor whose aria-label contains "sign in" while its text
content does not. -/
def exAnchor : Elem :=
  { tag := "a", textContent := "welcome home friends", value := "",
    ariaLabel := "sign in to your account today", altAttr := "", imgAlt := none,
    hasRect := true, width := 120, height := 20, display := "block",
    visibility := "visible", opacity := "1", sels := ["a"] }

/-- A visible button whose computed text is exactly "sign in". -/
def exButton : Elem :=
  { tag := "button", textContent := "Sign in", value := "",
    ariaLabel := "", altAttr := "", imgAlt := none,
    hasRect := true, width := 80, height := 20, display := "block",
    visibility := "visible", opacity := "1", sels := ["button"] }

/-- Document holding the anchor before the button. -/
def exDoc : List Elem := [exAnchor, exButton]

/-- A display-none element whose text contains "x". -/
def hiddenElem : Elem :=
  { tag := "div", textContent := "target x", value := "",
    ariaLabel := "", altAttr := "", imgAlt := none,
    hasRect := true, width := 50, height := 20, display := "none",
    visibility := "visible", opacity := "1", sels := [] }

/-- Document whose only matching element is invisible. -/
def hiddenDoc : List Elem := [hiddenElem]

/-- A `fn.toString()` sample: a function source string. -/
def exFnBody : String := "function script(a, b)\x7b return [a, b]; \x7d"

/-- The string `it's` (containing a single-quote character). -/
def itsStr : String := String.mk ['i', 't', Char.ofNat 39, 's']

/-- Sample `defaults read -g NSPreferredWebServices` output fragment naming
`com.google` as the provider. -/
def exDefaultsOut : String :=
  "NSPreferredWebServices = NSWebService; NSProviderIdentifier = \"com.google\"; NSProviderName = Google;"

/-- A page context before any capture injection. -/
def freshPage : PageState :=
  { safariErrors := none, safariWarnings := none, errorHooks := 0,
    warnHooks := 0, rejectionHooks := 0, onerrorHook := false }

/-!
Shared lemmas about the scan loop: the left fold with strict-less replacement
computes the first minimum of the eligible candidates.
-/

theorem scanFold_go {α : Type} (elig : α → Bool) (key : α → Nat) (es : List α) :
    ∀ cur : Option (α × Nat),
      es.foldl (fun cur e => if elig e && betterB cur (key e) then some (e, key e) else cur)
          cur =
        mergeBest cur (selectFirstMin elig key es) := by
  induction es with
  | nil => intro cur; simp [mergeBest, selectFirstMin]
  | cons e es ih =>
    intro cur
    rw [List.foldl_cons, ih]
    cases hsfm : selectFirstMin elig key es with
    | none =>
      rcases cur with _ | ⟨c, bl⟩ <;> by_cases he : elig e = true <;>
        simp only [selectFirstMin, hsfm, he, mergeBest, betterB, Bool.true_and,
          Bool.false_and, if_true, if_false, Bool.not_eq_true, decide_eq_true_eq] <;>
        split_ifs <;> simp_all [mergeBest, betterB]
    | some mk =>
      obtain ⟨m, k⟩ := mk
      rcases cur with _ | ⟨c, bl⟩
      · by_cases he : elig e = true
        · by_cases hk : key e ≤ k
          · have hnk : ¬ (k < key e) := by omega
            simp [selectFirstMin, hsfm, mergeBest, betterB, he, hk, hnk]
          · have hlt : k < key e := by omega
            simp [selectFirstMin, hsfm, mergeBest, betterB, he, hk, hlt]
        · simp [selectFirstMin, hsfm, mergeBest, betterB, he]
      · by_cases he : elig e = true
        · by_cases hb : key e < bl
          · by_cases hk : key e ≤ k
            · have hnk : ¬ (k < key e) := by omega
              simp [selectFirstMin, hsfm, mergeBest, betterB, he, hb, hk, hnk]
            · have hlt : k < key e := by omega
              have hkb : k < bl := by omega
              simp [selectFirstMin, hsfm, mergeBest, betterB, he, hb, hk, hlt, hkb]
          · by_cases hk : key e ≤ k
            · have hnb : ¬ (k < bl) := by omega
              simp [selectFirstMin, hsfm, mergeBest, betterB, he, hb, hk, hnb]
            · simp [selectFirstMin, hsfm, mergeBest, betterB, he, hb, hk]
        · simp [selectFirstMin, hsfm, mergeBest, betterB, he]

theorem scanFold_eq_selectFirstMin {α : Type} (elig : α → Bool) (key : α → Nat)
    (es : List α) : scanFold elig key es = selectFirstMin elig key es := by
  rw [scanFold, scanFold_go]
  cases h : selectFirstMin elig key es with
  | none => simp [mergeBest]
  | some mk => obtain ⟨m, k⟩ := mk; simp [mergeBest, betterB]

theorem selectFirstMin_none {α : Type} (elig : α → Bool) (key : α → Nat)
    (l : List α) : selectFirstMin elig key l = none ↔ ∀ a ∈ l, elig a = false := by
  induction l with
  | nil => simp [selectFirstMin]
  | cons e es ih =>
    cases hsfm : selectFirstMin elig key es with
    | none =>
      by_cases he : elig e = true
      · simp [selectFirstMin, hsfm, he]
      · simp only [Bool.not_eq_true] at he
        simp only [selectFirstMin, hsfm, he, Bool.false_eq_true, if_false,
          List.forall_mem_cons]
        simp [he]
        exact ih.mp hsfm
    | some mk =>
      obtain ⟨m0, k0⟩ := mk
      constructor
      · intro h
        by_cases hc : elig e = true ∧ key e ≤ k0 <;>
          simp [selectFirstMin, hsfm, hc] at h
      · intro h
        have := ih.mpr (List.forall_mem_cons.mp h).2
        rw [this] at hsfm
        exact absurd hsfm (by simp)

theorem selectFirstMin_eligible {α : Type} (elig : α → Bool) (key : α → Nat)
    (l : List α) (m : α) (k : Nat) (h : selectFirstMin elig key l = some (m, k)) :
    elig m = true ∧ k = key m ∧ m ∈ l := by
  induction l generalizing m k with
  | nil => simp [selectFirstMin] at h
  | cons e es ih =>
    cases hsfm : selectFirstMin elig key es with
    | none =>
      by_cases he : elig e = true
      · have hcons : selectFirstMin elig key (e :: es) = some (e, key e) := by
          simp [selectFirstMin, hsfm, he]
        rw [hcons] at h
        simp only [Option.some.injEq, Prod.mk.injEq] at h
        obtain ⟨rfl, rfl⟩ := h
        exact ⟨he, rfl, List.mem_cons_self ..⟩
      · have hcons : selectFirstMin elig key (e :: es) = none := by
          simp [selectFirstMin, hsfm, he]
        rw [hcons] at h
        simp at h
    | some mk =>
      obtain ⟨m0, k0⟩ := mk
      by_cases hc : elig e = true ∧ key e ≤ k0
      · have hcons : selectFirstMin elig key (e :: es) = some (e, key e) := by
          simp [selectFirstMin, hsfm, hc]
        rw [hcons] at h
        simp only [Option.some.injEq, Prod.mk.injEq] at h
        obtain ⟨rfl, rfl⟩ := h
        exact ⟨hc.1, rfl, List.mem_cons_self ..⟩
      · have hcons : selectFirstMin elig key (e :: es) = some (m0, k0) := by
          simp [selectFirstMin, hsfm, hc]
        rw [hcons] at h
        simp only [Option.some.injEq, Prod.mk.injEq] at h
        obtain ⟨rfl, rfl⟩ := h
        obtain ⟨g1, g2, g3⟩ := ih m0 k0 hsfm
        exact ⟨g1, g2, List.mem_cons_of_mem _ g3⟩

theorem selectFirstMin_min {α : Type} (elig : α → Bool) (key : α → Nat)
    (l : List α) (m : α) (k : Nat) (h : selectFirstMin elig key l = some (m, k)) :
    ∀ a ∈ l, elig a = true → k ≤ key a := by
  induction l generalizing m k with
  | nil => simp [selectFirstMin] at h
  | cons e es ih =>
    intro a ha hea
    cases hsfm : selectFirstMin elig key es with
    | none =>
      by_cases he : elig e = true
      · have hcons : selectFirstMin elig key (e :: es) = some (e, key e) := by
          simp [selectFirstMin, hsfm, he]
        rw [hcons] at h
        simp only [Option.some.injEq, Prod.mk.injEq] at h
        obtain ⟨rfl, rfl⟩ := h
        rcases List.mem_cons.mp ha with rfl | ha2
        · omega
        · have := ((selectFirstMin_none elig key es).mp hsfm) a ha2
          rw [this] at hea
          exact absurd hea (by simp)
      · have hcons : selectFirstMin elig key (e :: es) = none := by
          simp [selectFirstMin, hsfm, he]
        rw [hcons] at h
        simp at h
    | some mk =>
      obtain ⟨m0, k0⟩ := mk
      by_cases hc : elig e = true ∧ key e ≤ k0
      · have hcons : selectFirstMin elig key (e :: es) = some (e, key e) := by
          simp [selectFirstMin, hsfm, hc]
        rw [hcons] at h
        simp only [Option.some.injEq, Prod.mk.injEq] at h
        obtain ⟨rfl, rfl⟩ := h
        rcases List.mem_cons.mp ha with rfl | ha2
        · omega
        · have := ih m0 k0 hsfm a ha2 hea
          omega
      · have hcons : selectFirstMin elig key (e :: es) = some (m0, k0) := by
          simp [selectFirstMin, hsfm, hc]
        rw [hcons] at h
        simp only [Option.some.injEq, Prod.mk.injEq] at h
        obtain ⟨rfl, rfl⟩ := h
        rcases List.mem_cons.mp ha with rfl | ha2
        · have : ¬ key a ≤ k0 := fun hle => hc ⟨hea, hle⟩
          omega
        · exact ih m0 k0 hsfm a ha2 hea

theorem mem_of_ariaCands {a : Elem} {d : List Elem} (h : a ∈ ariaCands d) : a ∈ d :=
  (List.mem_filter.mp h).1

theorem mem_of_querySelectorAll {a : Elem} {s : String} {d : List Elem}
    (h : a ∈ querySelectorAll s d) : a ∈ d :=
  (List.mem_filter.mp h).1

theorem mem_of_tierBCands {a : Elem} {d : List Elem} (h : a ∈ tierBCands d) : a ∈ d := by
  rw [tierBCands, List.mem_flatten] at h
  obtain ⟨t, ht, hat⟩ := h
  obtain ⟨s, _, rfl⟩ := List.mem_map.mp ht
  exact mem_of_querySelectorAll hat

/-- C1.  The claim fails on the code: the aria-label first pass can commit to
an element selected by its aria-label even though the computed text of that
element does not contain the search text, while a strictly shorter
computed-text candidate exists.  In `exDoc`, searching "sign in" clicks the
anchor (aria-label match of length 29) whose computed text
"welcome home friends" does not contain "sign in", although the visible
button with computed text "sign in" (length 7) matches. -/
theorem c1_counterexample :
    clickElementEngine "sign in" exDoc = some exAnchor ∧
    strContains (getText exAnchor) "sign in" = false ∧
    exButton ∈ exDoc ∧
    isVisible exButton = true ∧
    strContains (getText exButton) "sign in" = true ∧
    (getText exButton).length < (getText exAnchor).length := by
  refine ⟨by decide, by decide, ?_, by decide, by decide, by decide⟩
  simp [exDoc]

/-- C1 (amended).  The engine equals the specification-side three-tier
selection: the aria-label pass picks, among visible aria-group elements whose
nonempty trimmed lower-cased aria-label contains the search text, the first
one in scan order with minimal aria-label length; only when that pass is
empty does the prioritized-selector text pass (and then the all-elements
pass) pick the first visible candidate in scan order with minimal computed
text length among those whose computed text contains the search text. -/
theorem c1_spec (st : String) (d : List Elem) :
    clickElementEngine st d = specClickSelect st d := by
  rw [clickElementEngine, specClickSelect, scanFold_eq_selectFirstMin,
    scanFold_eq_selectFirstMin, scanFold_eq_selectFirstMin]

/-- C2.  The engine never selects an element failing the visibility test, and
when every element matching by aria-label or computed text is invisible it
selects nothing and the script returns the no-element-found description. -/
theorem c2_spec (st : String) (d : List Elem) :
    (∀ e, clickElementEngine st d = some e → isVisible e = true) ∧
    ((∀ e ∈ d, anyTextMatch st e = true → isVisible e = false) →
      clickElementEngine st d = none ∧
        clickResultOf st d = "No element found with text: " ++ st) := by
  constructor
  · intro e he
    rw [clickElementEngine, scanFold_eq_selectFirstMin, scanFold_eq_selectFirstMin,
      scanFold_eq_selectFirstMin] at he
    cases h1 : selectFirstMin (ariaElig st) (fun e => (ariaLabelKey e).length)
        (ariaCands d) with
    | some mk =>
      obtain ⟨m, k⟩ := mk
      rw [h1] at he
      simp only [Option.some.injEq] at he
      subst he
      have := (selectFirstMin_eligible _ _ _ _ _ h1).1
      rw [ariaElig] at this
      simp only [Bool.and_eq_true] at this
      exact this.2
    | none =>
      rw [h1] at he
      cases h2 : selectFirstMin (textElig st) (fun e => (getText e).length)
          (tierBCands d) with
      | some mk =>
        obtain ⟨m, k⟩ := mk
        rw [h2] at he
        simp only [Option.some.injEq] at he
        subst he
        have := (selectFirstMin_eligible _ _ _ _ _ h2).1
        rw [textElig] at this
        simp only [Bool.and_eq_true] at this
        exact this.2
      | none =>
        rw [h2] at he
        cases h3 : selectFirstMin (textElig st) (fun e => (getText e).length)
            (querySelectorAll "*" d) with
        | some mk =>
          obtain ⟨m, k⟩ := mk
          rw [h3] at he
          simp at he
          subst he
          have := (selectFirstMin_eligible _ _ _ _ _ h3).1
          rw [textElig] at this
          simp only [Bool.and_eq_true] at this
          exact this.2
        | none => rw [h3] at he; simp at he
  · intro h
    have haria : selectFirstMin (ariaElig st) (fun e => (ariaLabelKey e).length)
        (ariaCands d) = none := by
      rw [selectFirstMin_none]
      intro a ha
      by_cases hm : (!(ariaLabelKey a).isEmpty && strContains (ariaLabelKey a) st) = true
      · have hinv := h a (mem_of_ariaCands ha) (by rw [anyTextMatch]; simp [hm])
        rw [ariaElig, hinv]
        simp
      · rw [ariaElig]
        simp only [Bool.not_eq_true] at hm
        rw [Bool.and_eq_false_iff]
        left
        exact hm
    have htext : ∀ l : List Elem, (∀ a ∈ l, a ∈ d) →
        selectFirstMin (textElig st) (fun e => (getText e).length) l = none := by
      intro l hl
      rw [selectFirstMin_none]
      intro a ha
      by_cases hm : strContains (getText a) st = true
      · have hinv := h a (hl a ha) (by rw [anyTextMatch]; simp [hm])
        rw [textElig, hinv]
        simp
      · rw [textElig]
        simp only [Bool.not_eq_true] at hm
        rw [Bool.and_eq_false_iff]
        left
        exact hm
    have hengine : clickElementEngine st d = none := by
      rw [clickElementEngine, scanFold_eq_selectFirstMin, scanFold_eq_selectFirstMin,
        scanFold_eq_selectFirstMin, haria,
        htext _ (fun a ha => mem_of_tierBCands ha),
        htext _ (fun a ha => mem_of_querySelectorAll ha)]
      rfl
    exact ⟨hengine, by rw [clickResultOf, hengine]⟩

/-- C2 witness: in a document whose only element matching "x" is
display-none, the engine selects nothing and reports no element found. -/
theorem c2_witness :
    clickElementEngine "x" hiddenDoc = none ∧
      clickResultOf "x" hiddenDoc = "No element found with text: x" :=
  (c2_spec "x" hiddenDoc).2 (by decide)

theorem hasFunction_wrapped (s : String) :
    hasFunction ("(function()\x7b" ++ s ++ "\x7d)()") = true := by
  have hdata : ("(function()\x7b" ++ s ++ "\x7d)()").data =
      '(' :: 'f' :: 'u' :: 'n' :: 'c' :: 't' :: 'i' :: 'o' :: 'n' :: '(' :: ')' ::
        '\x7b' :: (s.data ++ "\x7d)()".data) := by
    rw [String.data_append, String.data_append, List.append_assoc]
    rfl
  rw [hasFunction, jsTrimStart, hdata]
  rw [List.dropWhile_cons_of_neg (by decide)]
  have hpre : "(function".data <+: ('(' :: 'f' :: 'u' :: 'n' :: 'c' :: 't' :: 'i' ::
      'o' :: 'n' :: '(' :: ')' :: '\x7b' :: (s.data ++ "\x7d)()".data)) :=
    ⟨'(' :: ')' :: '\x7b' :: (s.data ++ "\x7d)()".data), rfl⟩
  have hb : "(function".data.isPrefixOf ('(' :: 'f' :: 'u' :: 'n' :: 'c' :: 't' :: 'i' ::
      'o' :: 'n' :: '(' :: ')' :: '\x7b' :: (s.data ++ "\x7d)()".data)) = true :=
    List.isPrefixOf_iff_prefix.mpr hpre
  simp [jsStartsWith, hb]

theorem wrapScript_of_hasFunction (s : String) (h : hasFunction s = true) :
    wrapScript s = s := by
  rw [wrapScript]
  have hc : (hasReturn s && !hasFunction s) = false := by rw [h]; simp
  rw [hc]
  simp

/-- C4.  A script is wrapped into an immediately-invoked function exactly
when it contains the token "return " and its trimmed prefix does not already
begin with a call wrapper; a script whose trimmed prefix is already a call
wrapper passes through unmodified, and wrapping is idempotent (never
double-wraps). -/
theorem c4_spec (s : String) :
    ((hasReturn s && !hasFunction s) = true ↔ wrapScript s ≠ s) ∧
    (hasFunction s = true → wrapScript s = s) ∧
    wrapScript (wrapScript s) = wrapScript s := by
  have hlen : ("(function()\x7b" ++ s ++ "\x7d)()").length = s.length + 16 := by
    rw [String.length_append, String.length_append]
    have h1 : ("(function()\x7b" : String).length = 12 := rfl
    have h2 : ("\x7d)()" : String).length = 4 := rfl
    omega
  refine ⟨⟨?_, ?_⟩, wrapScript_of_hasFunction s, ?_⟩
  · intro hc heq
    rw [wrapScript, if_pos hc] at heq
    have := congrArg String.length heq
    rw [hlen] at this
    omega
  · intro hne
    by_cases hc : (hasReturn s && !hasFunction s) = true
    · exact hc
    · exact absurd (by rw [wrapScript, if_neg hc]) hne
  · by_cases hc : (hasReturn s && !hasFunction s) = true
    · have h1 : wrapScript s = "(function()\x7b" ++ s ++ "\x7d)()" := by
        rw [wrapScript, if_pos hc]
      rw [h1]
      exact wrapScript_of_hasFunction _ (hasFunction_wrapped s)
    · have h1 : wrapScript s = s := by rw [wrapScript, if_neg hc]
      rw [h1]
      exact h1

/-- C4 witness: a bare "return 1" script is wrapped (hence differs from
itself unwrapped), while an already-wrapped script passes through
unmodified. -/
theorem c4_witness :
    wrapScript "return 1" ≠ "return 1" ∧
      wrapScript "(function()\x7b return 1 \x7d)()" =
        "(function()\x7b return 1 \x7d)()" :=
  ⟨(c4_spec "return 1").1.mp (by decide),
   (c4_spec "(function()\x7b return 1 \x7d)()").2.1 (by decide)⟩

theorem pagesOf_pos (sh ih : Nat) (hih : 0 < ih) (hsh : 0 < sh) :
    1 ≤ pagesOf sh ih := by
  rw [pagesOf, Nat.le_div_iff_mul_le hih]
  omega

theorem pagesOf_galois (sh ih p : Nat) (hih : 0 < ih) :
    pagesOf sh ih ≤ p ↔ sh ≤ ih * p := by
  rw [pagesOf, Nat.div_le_iff_le_mul_add_pred hih]
  generalize ih * p = X
  omega

/-- C5 counterexample.  With `scrollHeight = 0` (hence `pages = 0`) and a
request for page 2, the code computes offset `(min 2 0 - 1) * 1000 = -1000`,
while clamping the page to at least 1 and at most `pages` would give offset
0; so the claim fails as stated for page states with `scrollHeight = 0`. -/
theorem c5_counterexample :
    scrollToPageOffset 2 0 1000 = -1000 ∧
    (max 1 (min 2 ((pagesOf 0 1000 : Nat) : Int)) - 1) * (1000 : Int) = 0 ∧
    (-1000 : Int) ≠ 0 := by
  exact ⟨by decide, by decide, by decide⟩

/-- C5 (amended).  For page states with positive `innerHeight` and positive
`scrollHeight`, `getPageInfo` computes `pages` as the ceiling of
`scrollHeight / innerHeight` (characterized by its Galois property), and
`scrollToPage` scrolls to `(clamp(page, 1, pages) - 1) * innerHeight`, with
any request of page 1 or lower scrolling to offset 0; `pages 2500 1000 = 3`
and requesting page 5 there scrolls to offset 2000. -/
theorem c5_spec (page : Int) (sh ih : Nat) (hih : 0 < ih) (hsh : 0 < sh) :
    scrollToPageOffset page sh ih =
      (max 1 (min page (pagesOf sh ih : Int)) - 1) * (ih : Int) ∧
    (∀ p : Nat, pagesOf sh ih ≤ p ↔ sh ≤ ih * p) ∧
    (∀ pd : PageData, ∀ y : Nat,
      (getPageInfoModel pd y).pages = pagesOf pd.scrollHeight pd.innerHeight) ∧
    pagesOf 2500 1000 = 3 ∧
    scrollToPageOffset 5 2500 1000 = 2000 ∧
    (page ≤ 1 → scrollToPageOffset page sh ih = 0) := by
  have hP : (1 : Int) ≤ (pagesOf sh ih : Int) := by
    exact_mod_cast pagesOf_pos sh ih hih hsh
  refine ⟨?_, fun p => pagesOf_galois sh ih p hih, fun pd y => rfl, by decide,
    by decide, ?_⟩
  · rw [scrollToPageOffset]
    by_cases hp : page > 1
    · rw [if_pos hp]
      have h1 : (1 : Int) ≤ min page (pagesOf sh ih : Int) := by
        rw [le_min_iff]
        omega
      rw [max_eq_right h1]
    · rw [if_neg hp]
      have h1 : min page (pagesOf sh ih : Int) ≤ 1 :=
        le_trans (min_le_left ..) (by omega)
      rw [max_eq_left h1]
      simp
  · intro hple
    rw [scrollToPageOffset, if_neg (by omega)]

/-- C5 witness: the amended statement at the concrete page state of the
claim, `scrollHeight = 2500`, `innerHeight = 1000`, request page 5. -/
theorem c5_witness :
    scrollToPageOffset 5 2500 1000 =
      (max 1 (min 5 (pagesOf 2500 1000 : Int)) - 1) * (1000 : Int) ∧
    scrollToPageOffset 5 2500 1000 = 2000 :=
  ⟨(c5_spec 5 2500 1000 (by norm_num) (by norm_num)).1,
   (c5_spec 5 2500 1000 (by norm_num) (by norm_num)).2.2.2.2.1⟩

/-- C6.  Opening while active and closing (or any assertActive-guarded
operation) while inactive are precondition errors, and the flag becomes
active only through a successful `openSession` and inactive only through a
successful `closeSession`. -/
theorem c6_spec (a b : Bool) (op : ClientOp) :
    stepActive true ClientOp.openSession = .error alreadyActiveMsg ∧
    stepActive false ClientOp.closeSession = .error noSessionMsg ∧
    (op ≠ ClientOp.openSession → stepActive false op = .error noSessionMsg) ∧
    (stepActive a op = .ok b →
      ((a = false ∧ b = true) → op = ClientOp.openSession) ∧
      ((a = true ∧ b = false) → op = ClientOp.closeSession)) := by
  refine ⟨rfl, rfl, ?_, ?_⟩
  · intro hne
    cases op <;> first | exact absurd rfl hne | rfl
  · intro hok
    cases op <;> cases a <;> cases b <;> simp_all [stepActive]

/-- C6 witness: a guarded operation (`getTitle`) on an inactive session
errors with the precondition message. -/
theorem c6_witness : stepActive false ClientOp.getTitle = .error noSessionMsg :=
  (c6_spec false false ClientOp.getTitle).2.2.1 (by decide)

/-- C8.  Installing the error capture twice equals installing it once, a
fresh double-installed page carries exactly one interceptor per channel, and
a single console error then produces exactly one captured record. -/
theorem c8_spec (p : PageState) (msg : String) :
    installErrorCapture (installErrorCapture p) = installErrorCapture p ∧
    (p.safariErrors = none → p.errorHooks = 0 →
      (installErrorCapture (installErrorCapture p)).errorHooks = 1 ∧
      (installErrorCapture (installErrorCapture p)).warnHooks = p.warnHooks + 1 ∧
      (installErrorCapture (installErrorCapture p)).rejectionHooks =
        p.rejectionHooks + 1 ∧
      (fireConsoleError (installErrorCapture (installErrorCapture p)) msg).safariErrors =
        some [msg]) := by
  constructor
  · by_cases h : p.safariErrors.isSome <;> simp [installErrorCapture, h]
  · intro h0 hh
    have h1 : p.safariErrors.isSome = false := by rw [h0]; rfl
    simp [installErrorCapture, h1, fireConsoleError, hh]

/-- C8 witness: on a fresh page, double installation equals single
installation and one fired error yields exactly the one record "boom". -/
theorem c8_witness :
    installErrorCapture (installErrorCapture freshPage) = installErrorCapture freshPage ∧
      (fireConsoleError (installErrorCapture (installErrorCapture freshPage))
        "boom").safariErrors = some ["boom"] :=
  ⟨(c8_spec freshPage "boom").1, ((c8_spec freshPage "boom").2 rfl rfl).2.2.2⟩

/-- C9.  Evaluation of the screenshot path: when the capture utility reports
an error after creating the temp file, or the file read fails, the temp file
remains on disk while the error propagates with its message — the cleanup
claim fails on those paths; on success the file is removed, and a capture
error with no file created propagates cleanly. -/
theorem c9_spec :
    takeScreenshotModel (.errFileCreated "screencapture failed") (.readOk "") =
      (true, .error "screencapture failed") ∧
    takeScreenshotModel .captured (.readErr "read failed") =
      (true, .error "read failed") ∧
    takeScreenshotModel .captured (.readOk "pngbytes") = (false, .ok "pngbytes") ∧
    takeScreenshotModel (.errNoFile "no window") (.readOk "") =
      (false, .error "no window") :=
  ⟨rfl, rfl, rfl, rfl⟩

/-- C10.  Evaluation of `getPageInfo`: the returned record always carries
`scrollOffset = undefined` (`none`), never the page's actual scroll
position, because the `Browser.pageInfo` script reports only `innerHeight`
and `scrollHeight`; the other fields and `pages = ceil(scrollHeight /
innerHeight)` are recomputed from the live page data on every call. -/
theorem c10_spec :
    (∀ pd y, (getPageInfoModel pd y).scrollOffset = none) ∧
    (getPageInfoModel ⟨1000, 2500⟩ 500).scrollOffset = none ∧
    (getPageInfoModel ⟨1000, 2500⟩ 500).pages = 3 ∧
    (∀ pd y, (getPageInfoModel pd y).innerHeight = pd.innerHeight ∧
      (getPageInfoModel pd y).scrollHeight = pd.scrollHeight ∧
      (getPageInfoModel pd y).pages = pagesOf pd.scrollHeight pd.innerHeight) :=
  ⟨fun _ _ => rfl, rfl, by decide, fun _ _ => ⟨rfl, rfl, rfl⟩⟩

theorem digitChar_toNat (d : Nat) (h : d < 10) : (digitChar d).toNat = 48 + d := by
  interval_cases d <;> rfl

theorem digitChar_digit (d : Nat) (h : d < 10) :
    decide ('0' ≤ digitChar d ∧ digitChar d ≤ '9') = true := by
  interval_cases d <;> rfl

theorem natDigits_expand (n : Nat) :
    natDigits n = if n < 10 then [digitChar n]
      else natDigits (n / 10) ++ [digitChar (n % 10)] := by
  rw [natDigits]

theorem natDigits_ne_nil (n : Nat) : natDigits n ≠ [] := by
  rw [natDigits_expand]
  split_ifs <;> simp

theorem natDigits_all (n : Nat) :
    (natDigits n).all (fun d => decide ('0' ≤ d ∧ d ≤ '9')) = true := by
  induction n using Nat.strong_induction_on with
  | _ n ih =>
    rw [natDigits_expand]
    split_ifs with h
    · simp only [List.all_cons, List.all_nil, Bool.and_true]
      exact digitChar_digit n h
    · rw [List.all_append]
      have hlt : n / 10 < n := Nat.div_lt_self (by omega) (by omega)
      rw [ih _ hlt]
      simp only [List.all_cons, List.all_nil, Bool.and_true, Bool.true_and]
      exact digitChar_digit (n % 10) (by omega)

theorem digitsToNat_append (l : List Char) (c : Char) :
    digitsToNat (l ++ [c]) = digitsToNat l * 10 + (c.toNat - 48) := by
  rw [digitsToNat, digitsToNat, List.foldl_append]
  rfl

theorem digitsToNat_natDigits (n : Nat) : digitsToNat (natDigits n) = n := by
  induction n using Nat.strong_induction_on with
  | _ n ih =>
    rw [natDigits_expand]
    split_ifs with h
    · show 0 * 10 + ((digitChar n).toNat - 48) = n
      rw [digitChar_toNat n h]
      omega
    · rw [digitsToNat_append]
      have hlt : n / 10 < n := Nat.div_lt_self (by omega) (by omega)
      rw [ih _ hlt, digitChar_toNat (n % 10) (by omega)]
      omega

theorem hexVal_hexDigitLower (m : Nat) (h : m < 16) : hexVal (hexDigitLower m) = m := by
  interval_cases m <;> rfl

theorem isHexDigitChar_hexDigitLower (m : Nat) (h : m < 16) :
    isHexDigitChar (hexDigitLower m) = true := by
  interval_cases m <;> rfl

theorem parseStrChars_escape (c : Char) (rest : List Char) :
    parseStrChars (jsonEscapeChar c ++ rest) =
      (parseStrChars rest).map (fun p => (c :: p.1, p.2)) := by
  rw [jsonEscapeChar]
  split_ifs with h1 h2 h3 h4 h5 h6 h7 h8
  · subst h1
    cases hp : parseStrChars rest <;> (rw [parseStrChars.eq_def]; simp [escFor, hp])
  · subst h2
    cases hp : parseStrChars rest <;> (rw [parseStrChars.eq_def]; simp [escFor, hp])
  · subst h3
    cases hp : parseStrChars rest <;> (rw [parseStrChars.eq_def]; simp [escFor, hp])
  · subst h4
    cases hp : parseStrChars rest <;> (rw [parseStrChars.eq_def]; simp [escFor, hp])
  · subst h5
    cases hp : parseStrChars rest <;> (rw [parseStrChars.eq_def]; simp [escFor, hp])
  · subst h6
    cases hp : parseStrChars rest <;> (rw [parseStrChars.eq_def]; simp [escFor, hp])
  · subst h7
    cases hp : parseStrChars rest <;> (rw [parseStrChars.eq_def]; simp [escFor, hp])
  · have hdiv : c.toNat / 16 < 16 := by omega
    have hmod : c.toNat % 16 < 16 := by omega
    have hval : ((hexVal '0' * 16 + hexVal '0') * 16 +
        hexVal (hexDigitLower (c.toNat / 16))) * 16 +
        hexVal (hexDigitLower (c.toNat % 16)) = c.toNat := by
      rw [hexVal_hexDigitLower _ hdiv, hexVal_hexDigitLower _ hmod]
      have h0 : hexVal '0' = 0 := rfl
      rw [h0]
      omega
    have h0 : isHexDigitChar '0' = true := by decide
    cases hp : parseStrChars rest <;>
      (rw [parseStrChars.eq_def]
       simp [hp, h0, isHexDigitChar_hexDigitLower _ hdiv,
         isHexDigitChar_hexDigitLower _ hmod, hval, Char.ofNat_toNat])
  · cases hp : parseStrChars rest <;>
      (rw [parseStrChars.eq_def]; simp [hp, h1, h2])

theorem parseStrChars_quote (l rest : List Char) :
    parseStrChars (jsonQuoteChars l ++ ('"' :: rest)) = some (l, rest) := by
  induction l with
  | nil =>
    simp only [jsonQuoteChars, List.flatMap_nil, List.nil_append]
    rw [parseStrChars.eq_def]
    simp
  | cons c l ih =>
    simp only [jsonQuoteChars] at ih ⊢
    rw [List.flatMap_cons, List.append_assoc, parseStrChars_escape, ih]
    rfl

theorem ne_of_data_head {s t : String} {c d : Char} {ls lt : List Char}
    (hs : s.data = c :: ls) (ht : t.data = d :: lt) (hcd : c ≠ d) : s ≠ t := by
  intro h
  rw [h, ht] at hs
  injection hs with h1 _
  exact hcd h1.symm

theorem jsonParse_jsonQuote (s : String) :
    jsonParse (jsonQuote s) = some (JVal.jstr s) := by
  have hd : (jsonQuote s).data = '"' :: (jsonQuoteChars s.data ++ ['"']) := rfl
  have hne1 : jsonQuote s ≠ "true" :=
    ne_of_data_head hd (show ("true" : String).data = 't' :: ['r', 'u', 'e'] from rfl)
      (by decide)
  have hne2 : jsonQuote s ≠ "false" :=
    ne_of_data_head hd
      (show ("false" : String).data = 'f' :: ['a', 'l', 's', 'e'] from rfl) (by decide)
  have hne3 : jsonQuote s ≠ "null" :=
    ne_of_data_head hd (show ("null" : String).data = 'n' :: ['u', 'l', 'l'] from rfl)
      (by decide)
  have hq := parseStrChars_quote s.data []
  unfold jsonParse
  rw [if_neg hne1, if_neg hne2, if_neg hne3, hd]
  simp [hq]

theorem jsonParse_intRender (n : Int) : jsonParse (intRender n) = some (JVal.jnum n) := by
  cases n with
  | ofNat n =>
    show jsonParse (String.mk (natDigits n)) = some (JVal.jnum (Int.ofNat n))
    cases hnd : natDigits n with
    | nil => exact absurd hnd (natDigits_ne_nil n)
    | cons c rest =>
      have hall : ((c :: rest).all fun d => decide ('0' ≤ d ∧ d ≤ '9')) = true := by
        rw [← hnd]
        exact natDigits_all n
      have hcdec : decide ('0' ≤ c ∧ c ≤ '9') = true := by
        have h2 := hall
        rw [List.all_cons, Bool.and_eq_true] at h2
        exact h2.1
      have hc0 : '0' ≤ c ∧ c ≤ '9' := of_decide_eq_true hcdec
      have hd : (String.mk (c :: rest)).data = c :: rest := rfl
      have hne1 : String.mk (c :: rest) ≠ "true" :=
        ne_of_data_head hd
          (show ("true" : String).data = 't' :: ['r', 'u', 'e'] from rfl)
          (fun h => absurd (h ▸ hc0) (by decide))
      have hne2 : String.mk (c :: rest) ≠ "false" :=
        ne_of_data_head hd
          (show ("false" : String).data = 'f' :: ['a', 'l', 's', 'e'] from rfl)
          (fun h => absurd (h ▸ hc0) (by decide))
      have hne3 : String.mk (c :: rest) ≠ "null" :=
        ne_of_data_head hd
          (show ("null" : String).data = 'n' :: ['u', 'l', 'l'] from rfl)
          (fun h => absurd (h ▸ hc0) (by decide))
      have hcq : ¬ (c = '"') := fun h => absurd (h ▸ hc0) (by decide)
      have hcm : ¬ (c = '-') := fun h => absurd (h ▸ hc0) (by decide)
      have hdec : digitsToNat (c :: rest) = n := by
        rw [← hnd]
        exact digitsToNat_natDigits n
      unfold jsonParse
      rw [if_neg hne1, if_neg hne2, if_neg hne3]
      simp [hcq, hcm, hdec]
      refine ⟨hc0.1, hc0.2, ?_⟩
      intro x hx
      exact of_decide_eq_true ((List.all_eq_true.mp hall) x (List.mem_cons_of_mem _ hx))
  | negSucc n =>
    show jsonParse (String.mk ('-' :: natDigits (n + 1))) = some (JVal.jnum (Int.negSucc n))
    have hd : (String.mk ('-' :: natDigits (n + 1))).data = '-' :: natDigits (n + 1) := rfl
    have hne1 : String.mk ('-' :: natDigits (n + 1)) ≠ "true" :=
      ne_of_data_head hd
        (show ("true" : String).data = 't' :: ['r', 'u', 'e'] from rfl) (by decide)
    have hne2 : String.mk ('-' :: natDigits (n + 1)) ≠ "false" :=
      ne_of_data_head hd
        (show ("false" : String).data = 'f' :: ['a', 'l', 's', 'e'] from rfl) (by decide)
    have hne3 : String.mk ('-' :: natDigits (n + 1)) ≠ "null" :=
      ne_of_data_head hd
        (show ("null" : String).data = 'n' :: ['u', 'l', 'l'] from rfl) (by decide)
    unfold jsonParse
    rw [if_neg hne1, if_neg hne2, if_neg hne3, hd]
    simp [natDigits_ne_nil (n + 1), digitsToNat_natDigits (n + 1), Int.negSucc_eq]
    intro x hx
    exact of_decide_eq_true ((List.all_eq_true.mp (natDigits_all (n + 1))) x hx)

theorem jsonParse_jsonStringify (v : JVal) : jsonParse (jsonStringify v) = some v := by
  cases v with
  | jstr s => exact jsonParse_jsonQuote s
  | jnum n => exact jsonParse_intRender n
  | jbool b => cases b <;> decide
  | jnull => decide

theorem escape_flatMap (l : List Char) :
    ((l.flatMap (fun x => if x = '\\' then ("\\\\" : String).data else [x])).flatMap
        (fun x => if x = '"' then ("\\\"" : String).data else [x])) =
      l.flatMap
        (fun x => if x = '\\' then ['\\', '\\'] else
          if x = '"' then ['\\', '"'] else [x]) := by
  induction l with
  | nil => rfl
  | cons c l ih =>
    rw [List.flatMap_cons, List.flatMap_cons, List.flatMap_append, ih]
    congr 1
    by_cases h1 : c = '\\'
    · subst h1
      rfl
    · by_cases h2 : c = '"'
      · subst h2
        rfl
      · simp [h1, h2]

theorem automationEscape_data (s : String) :
    (automationEscape s).data =
      s.data.flatMap
        (fun x => if x = '\\' then ['\\', '\\'] else
          if x = '"' then ['\\', '"'] else [x]) :=
  escape_flatMap s.data

theorem literalUnescape_escape (l : List Char) :
    literalUnescape
        (l.flatMap
          (fun x => if x = '\\' then ['\\', '\\'] else
            if x = '"' then ['\\', '"'] else [x])) = l := by
  induction l with
  | nil => rfl
  | cons c l ih =>
    rw [List.flatMap_cons]
    by_cases h1 : c = '\\'
    · subst h1
      simp [literalUnescape, ih]
    · by_cases h2 : c = '"'
      · subst h2
        simp [literalUnescape, ih]
      · rw [if_neg h1, if_neg h2, List.singleton_append, literalUnescape.eq_def]
        simp [h1, ih]

theorem automationEscape_roundtrip (s : String) :
    literalUnescape (automationEscape s).data = s.data := by
  rw [automationEscape_data]
  exact literalUnescape_escape s.data

theorem hasFunction_paren_append (t u : String)
    (h : jsStartsWith t "function" = true) : hasFunction ("(" ++ t ++ u) = true := by
  have hdata : ("(" ++ t ++ u).data = '(' :: (t.data ++ u.data) := by
    rw [String.data_append, String.data_append]
    rfl
  rw [hasFunction, jsTrimStart, hdata, List.dropWhile_cons_of_neg (by decide)]
  have hp : ("function" : String).data <+: t.data := List.isPrefixOf_iff_prefix.mp h
  have hp2 : ("(function" : String).data <+: ('(' :: (t.data ++ u.data)) := by
    obtain ⟨tail, htail⟩ := hp
    refine ⟨tail ++ u.data, ?_⟩
    rw [show ("(function" : String).data = '(' :: ("function" : String).data from rfl]
    rw [List.cons_append, ← List.append_assoc, htail]
  have hb := List.isPrefixOf_iff_prefix.mpr hp2
  simp [jsStartsWith, hb]

/-- C3.  `Browser.serialize` builds the self-invoking expression
`'(' + fn + ')(' + JSON-encoded args + ')'`; every serialized argument value
is reconstructed exactly by reading its JSON encoding (round-trip over
strings — including ones with quote characters — numbers, booleans and
null); the built payload passes `Client.executeScript`'s wrap check
untouched; and the escaping for the outer AppleScript literal is applied to
the fully built payload, backslashes before double quotes, so that reading
the literal back yields the payload unchanged. -/
theorem c3_spec (fnBody : String) (args : List JVal)
    (hfn : jsStartsWith fnBody "function" = true) :
    serialize fnBody args =
      "(" ++ fnBody ++ ")(" ++ String.intercalate ", " (args.map jsonStringify) ++ ")" ∧
    (∀ v : JVal, jsonParse (jsonStringify v) = some v) ∧
    wrapScript (serialize fnBody args) = serialize fnBody args ∧
    automationExecuteScript (serialize fnBody args) =
      executeScriptTemplatePre ++ automationEscape (serialize fnBody args) ++
        executeScriptTemplatePost ∧
    literalUnescape (automationEscape (serialize fnBody args)).data =
      (serialize fnBody args).data := by
  refine ⟨rfl, jsonParse_jsonStringify, ?_, rfl, automationEscape_roundtrip _⟩
  apply wrapScript_of_hasFunction
  have hassoc : serialize fnBody args =
      "(" ++ fnBody ++
        ((")(" ++ String.intercalate ", " (args.map jsonStringify)) ++ ")") := by
    rw [serialize, String.append_assoc ("(" ++ fnBody), String.append_assoc ("(" ++ fnBody)]
  rw [hassoc]
  exact hasFunction_paren_append fnBody _ hfn

/-- C3 witness: round-trip at the claim's own values (a string containing a
quote character, and the number 42), and pass-through of the built payload
for a concrete function body. -/
theorem c3_witness :
    jsonParse (jsonStringify (JVal.jstr itsStr)) = some (JVal.jstr itsStr) ∧
    jsonParse (jsonStringify (JVal.jnum 42)) = some (JVal.jnum 42) ∧
    wrapScript (serialize exFnBody [JVal.jstr itsStr, JVal.jnum 42]) =
      serialize exFnBody [JVal.jstr itsStr, JVal.jnum 42] ∧
    literalUnescape
        (automationEscape (serialize exFnBody [JVal.jstr itsStr, JVal.jnum 42])).data =
      (serialize exFnBody [JVal.jstr itsStr, JVal.jnum 42]).data := by
  have h := c3_spec exFnBody [JVal.jstr itsStr, JVal.jnum 42] (by decide)
  exact ⟨h.2.1 (JVal.jstr itsStr), h.2.1 (JVal.jnum 42), h.2.2.1, h.2.2.2.2⟩

/-- C7.  `getSearchUrl` propagates a subprocess failure reading the provider,
throws when no provider identifier parses out of the output, and otherwise
returns exactly the URL built from the reversed identifier segments with the
`/search?q=` path and the URL-encoded query — there is no hardcoded fallback
provider in any branch; `com.google` reverses to `google.com`. -/
theorem c7_spec (query : String) :
    getSearchUrlModel none query = Except.error SearchUrlError.readFailed ∧
    (∀ out : String, findProvider out.data = none →
      getSearchUrlModel (some out) query = Except.error SearchUrlError.parseFailed) ∧
    (∀ out ident, findProvider out.data = some ident →
      getSearchUrlModel (some out) query =
        Except.ok ("https://" ++ reverseDomain ident ++ "/search?q=" ++
          encodeURIComponent query)) ∧
    reverseDomain "com.google" = "google.com" := by
  refine ⟨rfl, ?_, ?_, by decide⟩
  · intro out h
    simp [getSearchUrlModel, h]
  · intro out ident h
    simp [getSearchUrlModel, h]

/-- C7 witness: a provider output naming `com.google` and the query
"hello world" resolve to the Google search URL with the encoded query. -/
theorem c7_witness :
    getSearchUrlModel (some exDefaultsOut) "hello world" =
      Except.ok "https://google.com/search?q=hello%20world" := by
  have h := (c7_spec "hello world").2.2.1 exDefaultsOut "com.google" (by decide)
  rw [h]
  rfl

end SafariMCP
